import Mathlib

/-!
Shallow embedding of the concurrent download orchestration subsystem of the
nexus-downloader repository:

* `src/nexus_downloader/core/yt_dlp_service.py` — `YtDlpService.get_video_info`,
  `YtDlpService._format_error_message`, `YtDlpService.download_video`,
  `YtDlpService._check_subtitle_result`;
* `src/nexus_downloader/core/download_manager.py` — `FetchWorker.run`,
  `DownloadWorker.run`, `DownloadWorker._cleanup_incomplete_files`, and the
  `DownloadManager` queue / thread-pool orchestration.

The external yt-dlp calls are modelled as oracles (one constructor per
behaviour the embedded code distinguishes).  Python dynamic values that flow
through the embedded code are modelled by `PyVal`; Python exceptions that the
embedded code raises or catches are modelled by `PyExn` carried in `Except`.
-/

/-- A Python runtime value, as far as the embedded code manipulates one:
booleans, strings and None. -/
inductive PyVal where
  | vBool (b : Bool)
  | vStr (s : String)
  | vNone
deriving DecidableEq, Repr

/-- A Python exception raised by the embedded code itself.  The only one the
embedded fragment can raise is the tuple-unpacking `ValueError`. -/
inductive PyExn where
  | valueError (msg : String)
deriving DecidableEq, Repr

/-- `str(e)` for an exception: its message. -/
def pyExnMessage : PyExn → String
  | .valueError msg => msg

/-- Python truthiness of a value (`if success:` etc.). -/
def pyTruthy : PyVal → Bool
  | .vBool b => b
  | .vStr s => s ≠ ""
  | .vNone => false

/-- Python truthiness of a `str | None` value (`if error:` in
`FetchWorker.run`): `None` and the empty string are falsy. -/
def pyStrOptTruthy : Option String → Bool
  | none => false
  | some s => s ≠ ""

/-- The Python substring test `needle in hay` (for a nonempty needle):
splitting on the needle yields more than one part iff it occurs. -/
def containsSub (hay needle : String) : Bool :=
  decide (1 < (hay.splitOn needle).length)

/-- A video descriptor returned by the external metadata resolver.  Its
contents are opaque to the orchestration code, which only passes descriptors
through, so it is modelled by its title string. -/
abbrev VideoInfo := String

/-- What `yt_dlp.YoutubeDL.extract_info(url, download=False)` returned when it
did not raise: an info dict either without an `entries` key (single video) or
with one (playlist). -/
inductive ExtractResult where
  | single (v : VideoInfo)
  | playlist (entries : List VideoInfo)
deriving DecidableEq, Repr

/-- The behaviour of the external metadata-resolution call for one invocation:
it returns an `ExtractResult` or raises `yt_dlp.utils.DownloadError` (the
error type of that API in metadata mode, and exactly the type the source
catches) carrying a message string. -/
abbrev FetchCall := Except String ExtractResult

/-- `YtDlpService._format_error_message(url, error_msg)`: platform-aware
normalisation of a raw error message.  The Python if/elif chains fall through
to the generic checks when the platform was detected but no keyword matched;
the flattened conditions below replicate that control flow exactly. -/
def format_error_message (url error_msg : String) : String :=
  let error_lower := error_msg.toLower
  let is_bilibili := containsSub url "bilibili.com" || containsSub url "b23.tv"
  let is_xiaohongshu := containsSub url "xiaohongshu.com" || containsSub url "xhslink.com"
  if is_bilibili && (containsSub error_lower "geo-restrict" || containsSub error_lower "not available in your region") then
    "This Bilibili video is not available in your region. You may need to use a VPN or proxy."
  else if is_bilibili && containsSub error_lower "deleted" then
    "This Bilibili video may have been deleted or is no longer available."
  else if is_bilibili && (containsSub error_lower "private" || containsSub error_lower "members-only") then
    "This Bilibili video or collection requires authentication. Please refer to the documentation for cookie setup."
  else if is_bilibili && (containsSub error_lower "too many requests" || containsSub error_lower "412") then
    "Too many requests. Bilibili may be rate limiting. Please wait a few minutes and try again."
  else if is_bilibili && (containsSub error_lower "empty" && containsSub error_lower "playlist") then
    "The Bilibili collection or user space appears to be empty."
  else if is_xiaohongshu && containsSub error_lower "no video formats found" then
    "This Xiaohongshu content could not be extracted. It may require authentication or is restricted."
  else if is_xiaohongshu && containsSub error_lower "unsupported url" then
    "The Xiaohongshu URL is not supported or invalid. Please check the URL."
  else if is_xiaohongshu && (containsSub error_lower "http error 404" || containsSub error_lower "not found") then
    "This Xiaohongshu content or user could not be found."
  else if is_xiaohongshu && (containsSub error_lower "http error 403" || containsSub error_lower "forbidden") then
    "Access denied. This Xiaohongshu content may be private or require authentication. Please refer to the documentation for cookie setup."
  else if is_xiaohongshu && (containsSub error_lower "empty" && containsSub error_lower "playlist") then
    "The Xiaohongshu user profile appears to be empty."
  else if containsSub error_lower "network" || containsSub error_lower "connection" then
    "Failed to fetch video. Check your internet connection. Details: " ++ error_msg
  else if containsSub error_lower "invalid" || containsSub error_lower "not found" then
    "Invalid or unavailable video URL. Details: " ++ error_msg
  else
    error_msg

/-- `YtDlpService.get_video_info(url, cookies_file)`: wraps one external
metadata-resolution call (`ext`).  On a playlist it returns the entry list and
no error, on a single video a one-element list and no error; a raised
`DownloadError` is caught and converted to a formatted message with no list.
The cookies file only parametrises the external call (already abstracted into
the oracle). -/
def get_video_info (url : String) (_cookies_file : Option String)
    (ext : FetchCall) : Option (List VideoInfo) × Option String :=
  match ext with
  | .ok (.playlist entries) => (some entries, none)
  | .ok (.single v) => (some [v], none)
  | .error e => (none, some (format_error_message url e))

/-- The one terminal signal a `FetchWorker` emits. -/
inductive FetchSignal where
  | finished (videos : Option (List VideoInfo))
  | error (msg : String)
deriving DecidableEq, Repr

/-- `FetchWorker.run`: calls `get_video_info` and emits `error` when the error
component is truthy, otherwise `finished` with the (possibly `None`) video
list. -/
def FetchWorker.run (url : String) (cookies_file : Option String)
    (ext : FetchCall) : FetchSignal :=
  match get_video_info url cookies_file ext with
  | (videos, error) =>
    if pyStrOptTruthy error then .error (error.getD "")
    else .finished videos

/-- The fields of the yt-dlp extraction result dict that
`_check_subtitle_result` inspects, each reduced to its truthiness. -/
structure DlExtractInfo where
  subtitles : Bool
  automatic_captions : Bool
  requested_subtitles : Bool
deriving DecidableEq, Repr

/-- `YtDlpService._check_subtitle_result(result, embed_subtitles)`. -/
def check_subtitle_result (result : Option DlExtractInfo)
    (embed_subtitles : Bool) : String :=
  match result with
  | none => "no_subs"
  | some r =>
    let has_subtitles := r.subtitles || r.automatic_captions
    if r.requested_subtitles then
      if embed_subtitles then "subs_embedded" else "with_subs"
    else if has_subtitles then "with_subs"
    else "no_subs"

/-- The behaviour of the external media-download call
(`ydl.extract_info(video_url, download=True)`) for one invocation: it returns
a result dict (possibly `None`), raises `yt_dlp.utils.DownloadError`, or
raises some other `Exception` (for example the one the progress hook raises to
abort on cancellation). -/
inductive DlCall where
  | ok (result : Option DlExtractInfo)
  | dlError (msg : String)
  | exn (msg : String)
deriving DecidableEq, Repr

/-- `YtDlpService.download_video(...)`: wraps one external media-download call
(`ext`) and returns the Python 3-tuple, modelled as a list of `PyVal`:
`(True, subtitle_status, None)` on success, `(False, None, error_message)` on
failure.  Both exception types are caught inside this method, so it never
raises.  The option assembly (format string, output template, post-processors,
cookies) only parametrises the external call, which the oracle abstracts. -/
def download_video (video_url : String) (_download_folder_path : String)
    (video_resolution : String) (_video_format : String) (_audio_format : String)
    (_cookies_file : Option String) (subtitles_enabled : Bool)
    (_subtitle_language : String) (embed_subtitles : Bool)
    (ext : DlCall) : List PyVal :=
  let is_audio_only := video_resolution == "bestaudio/best"
  match ext with
  | .ok result =>
    let subtitle_status :=
      if subtitles_enabled && !is_audio_only then
        PyVal.vStr (check_subtitle_result result embed_subtitles)
      else PyVal.vNone
    [PyVal.vBool true, subtitle_status, PyVal.vNone]
  | .dlError msg =>
    if containsSub msg.toLower "ffmpeg" || containsSub msg.toLower "ffprobe" then
      [PyVal.vBool false, PyVal.vNone,
       PyVal.vStr "FFmpeg is required for audio/subtitle processing. Please install FFmpeg and try again."]
    else
      [PyVal.vBool false, PyVal.vNone, PyVal.vStr (format_error_message video_url msg)]
  | .exn msg =>
    [PyVal.vBool false, PyVal.vNone, PyVal.vStr ("An unexpected error occurred: " ++ msg)]

/-- Python tuple unpacking `a, b = t`: succeeds exactly on a 2-tuple and
raises `ValueError` otherwise. -/
def unpack2 (t : List PyVal) : Except PyExn (PyVal × PyVal) :=
  match t with
  | [a, b] => .ok (a, b)
  | t =>
    if 2 < t.length then
      .error (.valueError "too many values to unpack (expected 2)")
    else
      .error (.valueError "not enough values to unpack (expected 2)")

/-- The terminal signal a `DownloadWorker` emits, keyed by the video URL. -/
inductive DlOutcome where
  | finished (url : String)
  | error (url : String) (message : PyVal)
  | cancelled (url : String)
deriving DecidableEq, Repr

/-- What one execution of `DownloadWorker.run` did: the terminal signal it
emitted, whether it invoked the external download call, and whether it ran the
partial-file cleanup. -/
structure RunResult where
  outcome : DlOutcome
  called_external : Bool
  cleaned_up : Bool
deriving DecidableEq, Repr

/-- `DownloadWorker.run`.  `has_event` is whether a cancellation event was
supplied; `c1`, `c2`, `c3` are the values the shared cancellation flag has at
the three checkpoints (before the call, after the call, and inside the
exception handler).  The worker calls `download_video` with its default
format/subtitle arguments and unpacks the returned tuple into two names
(`success, message = ...`), so the unpack can raise; the surrounding
`try/except Exception` catches that. -/
def DownloadWorker.run (video_url download_folder_path video_resolution : String)
    (cookies_file : Option String) (has_event c1 c2 c3 : Bool)
    (ext : DlCall) : RunResult :=
  if has_event && c1 then
    { outcome := .cancelled video_url, called_external := false, cleaned_up := true }
  else
    match unpack2 (download_video video_url download_folder_path video_resolution
      "mp4" "m4a" cookies_file false "en" false ext) with
    | .ok (success, message) =>
      if has_event && c2 then
        { outcome := .cancelled video_url, called_external := true, cleaned_up := true }
      else if pyTruthy success then
        { outcome := .finished video_url, called_external := true, cleaned_up := false }
      else
        { outcome := .error video_url message, called_external := true, cleaned_up := false }
    | .error e =>
      if has_event && c3 then
        { outcome := .cancelled video_url, called_external := true, cleaned_up := true }
      else
        { outcome := .error video_url (PyVal.vStr (pyExnMessage e)),
          called_external := true, cleaned_up := false }

/-- A file in the destination folder, as the cleanup scan sees it: its name
within the folder and its last-modified time (`os.path.getmtime`). -/
structure FsFile where
  name : String
  mtime : Int
deriving DecidableEq, Repr

/-- Whether `glob.glob(folder + "/*" + ".part")` matches a file name: it must
end with the reserved `.part` suffix, and glob excludes hidden files (a
leading dot). -/
def matchesPartPattern (name : String) : Bool :=
  name.endsWith ".part" && !(name.startsWith ".")

/-- The bounded retry loop around `os.remove`: up to `max_retries = 10`
attempts; `removable f k` tells whether attempt `k` on file `f` succeeds
(abstracting the transient file locks the source retries against). -/
def remove_with_retries (removable : FsFile → Nat → Bool) (f : FsFile) : Bool :=
  (List.range 10).any fun attempt => removable f attempt

/-- `DownloadWorker._cleanup_incomplete_files`, as the transformation it
applies to the destination folder: the loop walks the glob matches and deletes
those modified within the last 60 seconds whose removal succeeds within the
retry budget, so a file disappears iff it matches the pattern, is recent, and
its removal succeeds; every other file survives.  The settling delay and the
inter-attempt sleeps do not affect which files are removed. -/
def cleanup_incomplete_files (files : List FsFile) (current_time : Int)
    (removable : FsFile → Nat → Bool) : List FsFile :=
  files.filter fun f =>
    !(matchesPartPattern f.name && decide (current_time - f.mtime < 60)
      && remove_with_retries removable f)

/-- One queued unit of download work.  `rid` is the (instrumentation) serial
number recording the order in which requests were appended to the queue;
`url` is the video URL the source stores. -/
structure Req where
  rid : Nat
  url : String
deriving DecidableEq, Repr

/-- The `DownloadManager` state: the pending FIFO `download_queue`, the
workers currently executing in the thread pool (`active`, so
`activeThreadCount()` is `active.length`), the pool's `maxThreadCount`, the
cancellation event, the current resolution and destination folder, and two
histories used only to state properties: `started` records every worker ever
dispatched, in dispatch order, and `outcomes` every terminal signal the
manager received, in order.  `next_id` feeds fresh serial numbers. -/
structure ManagerState where
  download_queue : List Req
  active : List Req
  max_threads : Int
  cancel_set : Bool
  video_resolution : String
  download_folder : String
  started : List Req
  outcomes : List (Req × DlOutcome)
  next_id : Nat
deriving DecidableEq, Repr

/-- `DownloadManager.set_concurrent_downloads(limit)`:
`thread_pool.setMaxThreadCount(max(1, limit))` and nothing else. -/
def set_concurrent_downloads (limit : Int) (s : ManagerState) : ManagerState :=
  { s with max_threads := max 1 limit }

/-- The `while` loop of `DownloadManager._start_next_download`, on the state
it reads and writes: while the queue is nonempty and
`activeThreadCount() < maxThreadCount()`, pop the front request and start a
worker for it (which makes it active and, for the record, started).
Returns the final (queue, active, started). -/
def drainLoop : List Req → List Req → List Req → Int → List Req × List Req × List Req
  | [], active, started, _ => ([], active, started)
  | r :: rest, active, started, maxT =>
    if (active.length : Int) < maxT then
      drainLoop rest (active ++ [r]) (started ++ [r]) maxT
    else
      (r :: rest, active, started)

/-- `DownloadManager._start_next_download`. -/
def start_next_download (s : ManagerState) : ManagerState :=
  { s with
    download_queue := (drainLoop s.download_queue s.active s.started s.max_threads).1,
    active := (drainLoop s.download_queue s.active s.started s.max_threads).2.1,
    started := (drainLoop s.download_queue s.active s.started s.max_threads).2.2 }

/-- The requests created for a submitted list of URLs, with serial numbers
assigned in list order starting at `firstId`. -/
def mkReqs (firstId : Nat) : List String → List Req
  | [] => []
  | u :: us => ⟨firstId, u⟩ :: mkReqs (firstId + 1) us

/-- `DownloadManager.start_download_job(video_urls, video_resolution)`: clears
the cancellation event, stores the resolution, appends every URL to the queue
in the given order, then drains. -/
def start_download_job (urls : List String) (resolution : String)
    (s : ManagerState) : ManagerState :=
  start_next_download
    { s with cancel_set := false,
             video_resolution := resolution,
             download_queue := s.download_queue ++ mkReqs s.next_id urls,
             next_id := s.next_id + urls.length }

/-- `DownloadManager.stop_all_downloads`: sets the cancellation event and
clears the pending queue. -/
def stop_all_downloads (s : ManagerState) : ManagerState :=
  { s with cancel_set := true, download_queue := [] }

/-- `DownloadManager.is_idle`:
`thread_pool.activeThreadCount() == 0 and not self.download_queue`. -/
def is_idle (s : ManagerState) : Bool :=
  s.active.length == 0 && s.download_queue.isEmpty

/-- An active worker reaches its terminal signal and the manager processes it:
the worker leaves the pool, its outcome (computed by `DownloadWorker.run`) is
recorded, and — since the `finished`, `error` and `cancelled` signals are all
connected to `_start_next_download` — the queue is drained.  `c1` is the flag
value the worker read at its first checkpoint (any value a concurrent
interleaving allows); the two post-call checkpoints read the flag at
completion time.  If `r` is not active the event is a no-op (no such worker
can finish). -/
def worker_finish (r : Req) (c1 : Bool) (ext : DlCall) (s : ManagerState) : ManagerState :=
  if r ∈ s.active then
    let res := DownloadWorker.run r.url s.download_folder s.video_resolution
      none true c1 s.cancel_set s.cancel_set ext
    start_next_download
      { s with active := s.active.erase r,
               outcomes := s.outcomes ++ [(r, res.outcome)] }
  else s

/-- The events that drive the orchestrator: the public calls of
`DownloadManager` that touch the download pipeline, plus worker
completion. -/
inductive Ev where
  | submit (urls : List String) (resolution : String)
  | config (limit : Int)
  | stop
  | finish (r : Req) (c1 : Bool) (ext : DlCall)
deriving DecidableEq, Repr

/-- One orchestrator step. -/
def exec (s : ManagerState) : Ev → ManagerState
  | .submit urls resolution => start_download_job urls resolution s
  | .config limit => set_concurrent_downloads limit s
  | .stop => stop_all_downloads s
  | .finish r c1 ext => worker_finish r c1 ext s

/-- Running a sequence of events. -/
def execTrace (s : ManagerState) (evs : List Ev) : ManagerState :=
  evs.foldl exec s

/-- `DownloadManager.__init__`: empty queue and pool, cancellation event
initially unset, default resolution `best`, and the concurrency limit from
settings installed via `set_concurrent_downloads`. -/
def initState (limit : Int) (folder : String) : ManagerState :=
  set_concurrent_downloads limit
    { download_queue := [], active := [], max_threads := 1, cancel_set := false,
      video_resolution := "best", download_folder := folder,
      started := [], outcomes := [], next_id := 0 }

/-- The states of the orchestrator reachable from a freshly constructed
manager by any sequence of events. -/
def Reachable (s : ManagerState) : Prop :=
  ∃ limit folder evs, execTrace (initState limit folder) evs = s

/-- Whether an event is a new batch submission (`start_download_job`), the
only event that clears the cancellation flag. -/
def IsSubmit : Ev → Prop
  | .submit _ _ => True
  | _ => False

/-- The drain loop dispatches some prefix `d` of the queue, appending it to
both the active set and the start history, and leaves the remaining suffix
queued. -/
theorem drainLoop_spec (queue : List Req) (active started : List Req) (maxT : Int) :
    ∃ d q2, queue = d ++ q2 ∧
      drainLoop queue active started maxT = (q2, active ++ d, started ++ d) := by
  induction queue generalizing active started with
  | nil => exact ⟨[], [], rfl, by simp [drainLoop]⟩
  | cons r rest ih =>
    by_cases h : (active.length : Int) < maxT
    · obtain ⟨d, q2, hq, hd⟩ := ih (active ++ [r]) (started ++ [r])
      refine ⟨r :: d, q2, by simp [hq], ?_⟩
      simp [drainLoop, h, hd]
    · exact ⟨[], r :: rest, rfl, by simp [drainLoop, h]⟩

/-- The drain loop never pushes the active count past the thread-pool cap. -/
theorem drainLoop_active_le (queue : List Req) (active started : List Req) (maxT : Int)
    (h : (active.length : Int) ≤ maxT) :
    ((drainLoop queue active started maxT).2.1.length : Int) ≤ maxT := by
  induction queue generalizing active started with
  | nil => simpa [drainLoop]
  | cons r rest ih =>
    by_cases hlt : (active.length : Int) < maxT
    · have := ih (active ++ [r]) (started ++ [r])
        (by simp only [List.length_append, List.length_cons, List.length_nil]; push_cast; omega)
      simpa [drainLoop, hlt]
    · simpa [drainLoop, hlt]

/-- With the pool already full (or over-full), the drain loop does nothing. -/
theorem drainLoop_full (queue active started : List Req) (maxT : Int)
    (h : ¬ (active.length : Int) < maxT) :
    drainLoop queue active started maxT = (queue, active, started) := by
  cases queue <;> simp [drainLoop, h]

/-- `_start_next_download` is the identity once the active count has reached
(or exceeds) the thread-pool cap: no further worker is started. -/
theorem start_next_download_full (s : ManagerState)
    (h : s.max_threads ≤ (s.active.length : Int)) :
    start_next_download s = s := by
  have hfull : drainLoop s.download_queue s.active s.started s.max_threads =
      (s.download_queue, s.active, s.started) :=
    drainLoop_full s.download_queue s.active s.started s.max_threads (by omega)
  unfold start_next_download
  rw [hfull]

/-- Serial numbers of a submission lie in `[firstId, firstId + length)`. -/
theorem mkReqs_rid_mem (n : Nat) (us : List String) (x : Req) (hx : x ∈ mkReqs n us) :
    n ≤ x.rid ∧ x.rid < n + us.length := by
  induction us generalizing n with
  | nil => simp [mkReqs] at hx
  | cons u us ih =>
    simp only [mkReqs, List.mem_cons] at hx
    rcases hx with rfl | hx
    · refine ⟨le_refl n, ?_⟩
      simp only [List.length_cons]
      omega
    · have := ih (n + 1) hx
      simp only [List.length_cons]
      omega

/-- Serial numbers of a submission are strictly increasing in list order:
requests of one submission are enqueued in the order given. -/
theorem mkReqs_sorted (n : Nat) (us : List String) :
    (mkReqs n us).Pairwise (fun a b => a.rid < b.rid) := by
  induction us generalizing n with
  | nil => simp [mkReqs]
  | cons u us ih =>
    refine List.pairwise_cons.mpr ⟨fun x hx => ?_, ih (n + 1)⟩
    have := (mkReqs_rid_mem (n + 1) us x hx).1
    simp only
    omega

/-- `download_video` returns a 3-tuple on every path. -/
theorem download_video_length (video_url folder resolution vf af : String)
    (cookies : Option String) (se : Bool) (sl : String) (es : Bool) (ext : DlCall) :
    (download_video video_url folder resolution vf af cookies se sl es ext).length = 3 := by
  cases ext <;> simp only [download_video] <;> (try split) <;> rfl

/-- Unpacking a 3-tuple into two names raises
`ValueError: too many values to unpack (expected 2)`. -/
theorem unpack2_length_three (t : List PyVal) (h : t.length = 3) :
    unpack2 t = .error (.valueError "too many values to unpack (expected 2)") := by
  match t, h with
  | [a, b, c], _ => rfl

/-- A worker holding the cancellation event whose two post-call checkpoints
see the flag set reports `cancelled`, whatever its first checkpoint read and
whatever the external call did. -/
theorem run_outcome_cancelled_of_flag (url folder res : String) (cookies : Option String)
    (c1 : Bool) (ext : DlCall) :
    (DownloadWorker.run url folder res cookies true c1 true true ext).outcome =
      .cancelled url := by
  cases c1 with
  | true => rfl
  | false =>
    unfold DownloadWorker.run
    rw [unpack2_length_three _
      (download_video_length url folder res "mp4" "m4a" cookies false "en" false ext)]
    rfl

/-- The bookkeeping invariant of the orchestrator: dispatch history and queue
carry strictly increasing serial numbers, everything dispatched precedes
everything still queued, all serial numbers are below the fresh counter,
active workers were dispatched, and every recorded outcome belongs to a
dispatched worker. -/
structure MInv (s : ManagerState) : Prop where
  started_sorted : s.started.Pairwise (fun a b => a.rid < b.rid)
  queue_sorted : s.download_queue.Pairwise (fun a b => a.rid < b.rid)
  started_lt_queue : ∀ a ∈ s.started, ∀ b ∈ s.download_queue, a.rid < b.rid
  started_lt_next : ∀ a ∈ s.started, a.rid < s.next_id
  queue_lt_next : ∀ b ∈ s.download_queue, b.rid < s.next_id
  active_sub_started : ∀ a ∈ s.active, a ∈ s.started
  outcomes_sub_started : ∀ p ∈ s.outcomes, p.1 ∈ s.started

/-- Draining the queue preserves the bookkeeping invariant. -/
theorem minv_start_next {s : ManagerState} (h : MInv s) : MInv (start_next_download s) := by
  obtain ⟨d, q2, hq, hd⟩ := drainLoop_spec s.download_queue s.active s.started s.max_threads
  have hd_sub : ∀ x ∈ d, x ∈ s.download_queue := fun x hx => by
    rw [hq]; exact List.mem_append_left _ hx
  have hq2_sub : ∀ x ∈ q2, x ∈ s.download_queue := fun x hx => by
    rw [hq]; exact List.mem_append_right _ hx
  have hqsplit := h.queue_sorted
  rw [hq, List.pairwise_append] at hqsplit
  unfold start_next_download
  rw [hd]
  constructor
  case started_sorted =>
    rw [List.pairwise_append]
    exact ⟨h.started_sorted, hqsplit.1,
      fun a ha b hb => h.started_lt_queue a ha b (hd_sub b hb)⟩
  case queue_sorted => exact hqsplit.2.1
  case started_lt_queue =>
    intro a ha b hb
    rcases List.mem_append.mp ha with ha | ha
    · exact h.started_lt_queue a ha b (hq2_sub b hb)
    · exact hqsplit.2.2 a ha b hb
  case started_lt_next =>
    intro a ha
    rcases List.mem_append.mp ha with ha | ha
    · exact h.started_lt_next a ha
    · exact h.queue_lt_next a (hd_sub a ha)
  case queue_lt_next =>
    intro b hb
    exact h.queue_lt_next b (hq2_sub b hb)
  case active_sub_started =>
    intro a ha
    rcases List.mem_append.mp ha with ha | ha
    · exact List.mem_append_left _ (h.active_sub_started a ha)
    · exact List.mem_append_right _ ha
  case outcomes_sub_started =>
    intro p hp
    exact List.mem_append_left _ (h.outcomes_sub_started p hp)

/-- Every orchestrator event preserves the bookkeeping invariant. -/
theorem minv_exec {s : ManagerState} (e : Ev) (h : MInv s) : MInv (exec s e) := by
  cases e with
  | submit urls resolution =>
    refine minv_start_next ?_
    have hnew : ∀ x ∈ mkReqs s.next_id urls,
        s.next_id ≤ x.rid ∧ x.rid < s.next_id + urls.length :=
      fun x hx => mkReqs_rid_mem s.next_id urls x hx
    constructor
    case started_sorted => exact h.started_sorted
    case queue_sorted =>
      rw [List.pairwise_append]
      refine ⟨h.queue_sorted, mkReqs_sorted _ _, fun a ha b hb => ?_⟩
      have h1 := h.queue_lt_next a ha
      have h2 := (hnew b hb).1
      omega
    case started_lt_queue =>
      intro a ha b hb
      rcases List.mem_append.mp hb with hb | hb
      · exact h.started_lt_queue a ha b hb
      · have h1 := h.started_lt_next a ha
        have h2 := (hnew b hb).1
        omega
    case started_lt_next =>
      intro a ha
      show a.rid < s.next_id + urls.length
      have := h.started_lt_next a ha
      omega
    case queue_lt_next =>
      intro b hb
      show b.rid < s.next_id + urls.length
      rcases List.mem_append.mp hb with hb | hb
      · have := h.queue_lt_next b hb
        omega
      · exact (hnew b hb).2
    case active_sub_started => exact h.active_sub_started
    case outcomes_sub_started => exact h.outcomes_sub_started
  | config limit =>
    exact ⟨h.started_sorted, h.queue_sorted, h.started_lt_queue, h.started_lt_next,
      h.queue_lt_next, h.active_sub_started, h.outcomes_sub_started⟩
  | stop =>
    show MInv (stop_all_downloads s)
    unfold stop_all_downloads
    constructor
    case started_sorted => exact h.started_sorted
    case queue_sorted => exact List.Pairwise.nil
    case started_lt_queue =>
      intro a ha b hb
      exact absurd hb (List.not_mem_nil b)
    case started_lt_next => exact h.started_lt_next
    case queue_lt_next =>
      intro b hb
      exact absurd hb (List.not_mem_nil b)
    case active_sub_started => exact h.active_sub_started
    case outcomes_sub_started => exact h.outcomes_sub_started
  | finish r c1 ext =>
    show MInv (worker_finish r c1 ext s)
    unfold worker_finish
    split
    case isTrue hr =>
      refine minv_start_next ?_
      constructor
      case started_sorted => exact h.started_sorted
      case queue_sorted => exact h.queue_sorted
      case started_lt_queue => exact h.started_lt_queue
      case started_lt_next => exact h.started_lt_next
      case queue_lt_next => exact h.queue_lt_next
      case active_sub_started =>
        intro a ha
        exact h.active_sub_started a (List.mem_of_mem_erase ha)
      case outcomes_sub_started =>
        intro p hp
        rcases List.mem_append.mp hp with hp | hp
        · exact h.outcomes_sub_started p hp
        · have := List.mem_singleton.mp hp
          subst this
          exact h.active_sub_started r hr
    case isFalse => exact h

/-- The invariant holds along every trace. -/
theorem minv_exec_trace (evs : List Ev) {s : ManagerState} (h : MInv s) :
    MInv (execTrace s evs) := by
  induction evs generalizing s with
  | nil => exact h
  | cons e evs ih => exact ih (minv_exec e h)

/-- A freshly constructed manager satisfies the invariant. -/
theorem minv_init (limit : Int) (folder : String) : MInv (initState limit folder) := by
  constructor <;> simp [initState, set_concurrent_downloads]

/-- Every reachable orchestrator state satisfies the invariant. -/
theorem minv_of_reachable {s : ManagerState} (h : Reachable s) : MInv s := by
  obtain ⟨limit, folder, evs, rfl⟩ := h
  exact minv_exec_trace evs (minv_init limit folder)

/-- A request the orchestrator has dropped: it is nowhere in the current
state (not queued, not active, not in the dispatch history, not among the
outcomes) and its serial number is stale, so no later submission can mint it
again. -/
def Avoids (r : Req) (s : ManagerState) : Prop :=
  r ∉ s.download_queue ∧ r ∉ s.active ∧ r ∉ s.started ∧
    (∀ p ∈ s.outcomes, p.1 ≠ r) ∧ r.rid < s.next_id

/-- Draining cannot touch a dropped request. -/
theorem avoids_start_next {r : Req} {s : ManagerState} (h : Avoids r s) :
    Avoids r (start_next_download s) := by
  obtain ⟨hq, ha, hst, hout, hid⟩ := h
  obtain ⟨d, q2, hsplit, hd⟩ := drainLoop_spec s.download_queue s.active s.started s.max_threads
  have hnd : r ∉ d := fun hrd => hq (hsplit ▸ List.mem_append_left _ hrd)
  have hnq2 : r ∉ q2 := fun hrq => hq (hsplit ▸ List.mem_append_right _ hrq)
  unfold start_next_download
  rw [hd]
  refine ⟨hnq2, ?_, ?_, hout, hid⟩
  · intro hr
    rcases List.mem_append.mp hr with hr | hr
    · exact ha hr
    · exact hnd hr
  · intro hr
    rcases List.mem_append.mp hr with hr | hr
    · exact hst hr
    · exact hnd hr

/-- No orchestrator event brings a dropped request back: it never re-enters
the queue, never becomes active, never starts, and never gets an outcome. -/
theorem avoids_exec {r : Req} {s : ManagerState} (e : Ev) (h : Avoids r s) :
    Avoids r (exec s e) := by
  obtain ⟨hq, ha, hst, hout, hid⟩ := h
  cases e with
  | submit urls resolution =>
    refine avoids_start_next ?_
    refine ⟨?_, ha, hst, hout, ?_⟩
    · intro hr
      rcases List.mem_append.mp hr with hr | hr
      · exact hq hr
      · have := (mkReqs_rid_mem s.next_id urls r hr).1
        omega
    · show r.rid < s.next_id + urls.length
      omega
  | config limit => exact ⟨hq, ha, hst, hout, hid⟩
  | stop =>
    show Avoids r (stop_all_downloads s)
    unfold stop_all_downloads
    exact ⟨List.not_mem_nil r, ha, hst, hout, hid⟩
  | finish rf c1 ext =>
    show Avoids r (worker_finish rf c1 ext s)
    unfold worker_finish
    split
    case isTrue hrf =>
      refine avoids_start_next ?_
      refine ⟨hq, ?_, hst, ?_, hid⟩
      · intro hr
        exact ha (List.mem_of_mem_erase hr)
      · intro p hp
        rcases List.mem_append.mp hp with hp | hp
        · exact hout p hp
        · have := List.mem_singleton.mp hp
          subst this
          intro hpr
          exact ha (hpr ▸ hrf)
    case isFalse => exact ⟨hq, ha, hst, hout, hid⟩

/-- A dropped request stays dropped along every continuation. -/
theorem avoids_exec_trace (evs : List Ev) {r : Req} {s : ManagerState} (h : Avoids r s) :
    Avoids r (execTrace s evs) := by
  induction evs generalizing s with
  | nil => exact h
  | cons e evs ih => exact ih (avoids_exec e h)

/-- Only a new batch submission clears the cancellation event; every other
event leaves it set. -/
theorem cancel_preserved {s : ManagerState} (e : Ev) (hf : s.cancel_set = true)
    (he : ¬ IsSubmit e) : (exec s e).cancel_set = true := by
  cases e with
  | submit urls resolution => exact absurd trivial he
  | config limit => exact hf
  | stop => rfl
  | finish r c1 ext =>
    show (worker_finish r c1 ext s).cancel_set = true
    unfold worker_finish
    split
    · exact hf
    · exact hf

/-- While the cancellation flag is set, every outcome an event appends is
`Cancelled` (the worker lemma `run_outcome_cancelled_of_flag`): an outcome in
the post-state was already recorded or is a cancellation. -/
theorem outcomes_cancelled_step {s : ManagerState} (e : Ev) (hf : s.cancel_set = true)
    (he : ¬ IsSubmit e) :
    ∀ p ∈ (exec s e).outcomes, p ∈ s.outcomes ∨ p.2 = .cancelled p.1.url := by
  cases e with
  | submit urls resolution => exact absurd trivial he
  | config limit => exact fun p hp => Or.inl hp
  | stop => exact fun p hp => Or.inl hp
  | finish r c1 ext =>
    intro p hp
    show p ∈ s.outcomes ∨ p.2 = .cancelled p.1.url
    have hp2 : p ∈ (worker_finish r c1 ext s).outcomes := hp
    unfold worker_finish at hp2
    split at hp2
    case isTrue hr =>
      have hp3 : p ∈ s.outcomes ++
          [(r, (DownloadWorker.run r.url s.download_folder s.video_resolution
            none true c1 s.cancel_set s.cancel_set ext).outcome)] := hp2
      rcases List.mem_append.mp hp3 with hp4 | hp4
      · exact Or.inl hp4
      · have := List.mem_singleton.mp hp4
        subst this
        right
        rw [hf]
        exact run_outcome_cancelled_of_flag r.url s.download_folder s.video_resolution
          none c1 ext
    case isFalse => exact Or.inl hp2

/-- While the cancellation flag is set and no new batch is submitted, the flag
stays set and every outcome reported along the continuation is either an old
one or a `Cancelled` one. -/
theorem outcomes_cancelled_trace (evs : List Ev) {s : ManagerState}
    (hf : s.cancel_set = true) (he : ∀ e ∈ evs, ¬ IsSubmit e) :
    (execTrace s evs).cancel_set = true ∧
      ∀ p ∈ (execTrace s evs).outcomes, p ∈ s.outcomes ∨ p.2 = .cancelled p.1.url := by
  induction evs generalizing s with
  | nil => exact ⟨hf, fun p hp => Or.inl hp⟩
  | cons e evs ih =>
    have he1 : ¬ IsSubmit e := he e (List.mem_cons_self e evs)
    have he2 : ∀ x ∈ evs, ¬ IsSubmit x := fun x hx => he x (List.mem_cons_of_mem e hx)
    have hstep := cancel_preserved e hf he1
    obtain ⟨hft, houts⟩ := ih hstep he2
    refine ⟨hft, fun p hp => ?_⟩
    rcases houts p hp with hp2 | hp2
    · exact outcomes_cancelled_step e hf he1 p hp2
    · exact Or.inr hp2

/-- Finishing an active worker records exactly the outcome computed by the
embedded `DownloadWorker.run`. -/
theorem worker_finish_outcomes_mem {r : Req} {s : ManagerState} (hr : r ∈ s.active)
    (c1 : Bool) (ext : DlCall) :
    (r, (DownloadWorker.run r.url s.download_folder s.video_resolution none true c1
      s.cancel_set s.cancel_set ext).outcome) ∈ (worker_finish r c1 ext s).outcomes := by
  unfold worker_finish
  rw [if_pos hr]
  show _ ∈ s.outcomes ++ [_]
  exact List.mem_append_right _ (List.mem_singleton.mpr rfl)

/-- C1.  The claim says a download whose external call returns success while
the cancellation flag is unset reports the finished outcome.  The code
cannot do that: `YtDlpService.download_video` returns a 3-tuple
`(True, subtitle_status, None)` while `DownloadWorker.run` unpacks it into
two names, so the unpacking raises `ValueError` and the worker reports an
error outcome even for a successful external call.  This theorem evaluates
the embedded worker at exactly such an input. -/
theorem C1_success_reports_error_not_finished :
    DownloadWorker.run "https://example.com/v" "/downloads" "best" none
      true false false false (.ok none) =
      { outcome := .error "https://example.com/v"
          (.vStr "too many values to unpack (expected 2)"),
        called_external := true, cleaned_up := false } := by decide

/-- C4: a request dequeued while the shared cancellation flag is already set
short-circuits to the Cancelled outcome (after cleanup) and never invokes the
external download call, whatever that call would have done and whatever the
later checkpoints would have read. -/
theorem C4_short_circuit_cancelled (url folder res : String) (cookies : Option String)
    (c2 c3 : Bool) (ext : DlCall) :
    DownloadWorker.run url folder res cookies true true c2 c3 ext =
      { outcome := .cancelled url, called_external := false, cleaned_up := true } := rfl

/-- C6: external-library failures are contained at the task boundary.  A
raised `DownloadError` during fetch is caught by `get_video_info` and becomes
a formatted error string with no list; `FetchWorker.run` always emits exactly
one of its two typed signals; and `DownloadWorker.run` always produces one of
the three typed outcomes for its URL, over every modelled behaviour of the
external download call (success, `DownloadError`, any other exception) and
every flag reading. -/
theorem C6_exceptions_contained :
    (∀ (url : String) (cookies : Option String) (e : String),
      get_video_info url cookies (.error e) = (none, some (format_error_message url e))) ∧
    (∀ (url : String) (cookies : Option String) (ext : FetchCall),
      (∃ videos, FetchWorker.run url cookies ext = .finished videos) ∨
      (∃ msg, FetchWorker.run url cookies ext = .error msg)) ∧
    (∀ (url folder res : String) (cookies : Option String) (has_event c1 c2 c3 : Bool)
      (ext : DlCall),
      (DownloadWorker.run url folder res cookies has_event c1 c2 c3 ext).outcome =
          .finished url ∨
      (∃ m, (DownloadWorker.run url folder res cookies has_event c1 c2 c3 ext).outcome =
          .error url m) ∨
      (DownloadWorker.run url folder res cookies has_event c1 c2 c3 ext).outcome =
          .cancelled url) := by
  refine ⟨fun url cookies e => rfl, ?_, ?_⟩
  · intro url cookies ext
    cases ext with
    | ok r =>
      cases r with
      | single v => exact Or.inl ⟨some [v], rfl⟩
      | playlist es => exact Or.inl ⟨some es, rfl⟩
    | error e =>
      by_cases h : format_error_message url e = ""
      · refine Or.inl ⟨none, ?_⟩
        simp [FetchWorker.run, get_video_info, pyStrOptTruthy, h]
      · refine Or.inr ⟨format_error_message url e, ?_⟩
        simp [FetchWorker.run, get_video_info, pyStrOptTruthy, h]
  · intro url folder res cookies has_event c1 c2 c3 ext
    unfold DownloadWorker.run
    rw [unpack2_length_three _
      (download_video_length url folder res "mp4" "m4a" cookies false "en" false ext)]
    cases has_event <;> cases c1 <;> cases c3 <;>
      first
        | (right; right; rfl)
        | (right; left; exact ⟨_, rfl⟩)

/-- C7 counterexample: a playlist whose entry list is empty makes
`get_video_info` return an empty descriptor list together with no error
string, which the claim rules out ("success yields a non-empty list"). -/
theorem C7_counterexample_empty_playlist :
    get_video_info "https://example.com/list" none (.ok (.playlist [])) =
      (some [], none) := rfl

/-- C7 amended: the two components are mutually exclusive — every call
returns either a (possibly empty) descriptor list with no error string or no
list with an error string, never both and never neither; non-emptiness of the
success list does not hold. -/
theorem C7_amended_mutually_exclusive (url : String) (cookies : Option String)
    (ext : FetchCall) :
    (∃ l, get_video_info url cookies ext = (some l, none)) ∨
    (∃ msg, get_video_info url cookies ext = (none, some msg)) := by
  cases ext with
  | ok r =>
    cases r with
    | single v => exact Or.inl ⟨[v], rfl⟩
    | playlist es => exact Or.inl ⟨es, rfl⟩
  | error e => exact Or.inr ⟨format_error_message url e, rfl⟩

/-- C8: the cleanup deletes only files that match the partial-file glob
pattern and were modified within the 60-second recency window: a file that
vanishes must match the pattern and be recent, and every file that fails the
pattern or is at least 60 seconds old survives untouched, whatever the
removal attempts would do. -/
theorem C8_cleanup_recency_window (files : List FsFile) (current_time : Int)
    (removable : FsFile → Nat → Bool) (f : FsFile) (hf : f ∈ files) :
    (f ∉ cleanup_incomplete_files files current_time removable →
      matchesPartPattern f.name = true ∧ current_time - f.mtime < 60) ∧
    ((matchesPartPattern f.name = false ∨ 60 ≤ current_time - f.mtime) →
      f ∈ cleanup_incomplete_files files current_time removable) := by
  by_cases hm : matchesPartPattern f.name = true
  · by_cases hr : current_time - f.mtime < 60
    · refine ⟨fun _ => ⟨hm, hr⟩, fun hcon => ?_⟩
      rcases hcon with hcon | hcon
      · rw [hm] at hcon
        exact absurd hcon (by decide)
      · omega
    · have hin : f ∈ cleanup_incomplete_files files current_time removable := by
        simp [cleanup_incomplete_files, List.mem_filter, hf, hr]
      exact ⟨fun hnot => absurd hin hnot, fun _ => hin⟩
  · have hin : f ∈ cleanup_incomplete_files files current_time removable := by
      simp only [Bool.not_eq_true] at hm
      simp [cleanup_incomplete_files, List.mem_filter, hf, hm]
    exact ⟨fun hnot => absurd hin hnot, fun _ => hin⟩

/-- C8 witness: a stale partial file (1000 seconds old) survives the cleanup
even though it matches the pattern and its removal would succeed. -/
theorem C8_cleanup_recency_window_witness :
    ({ name := "video.mp4.part", mtime := 0 } : FsFile) ∈
      cleanup_incomplete_files [{ name := "video.mp4.part", mtime := 0 }] 1000
        (fun _ _ => true) :=
  (C8_cleanup_recency_window [{ name := "video.mp4.part", mtime := 0 }] 1000
    (fun _ _ => true) { name := "video.mp4.part", mtime := 0 } (by decide)).2
    (Or.inr (by decide))

/-- C10: `set_concurrent_downloads(limit)` sets the pool cap to
`max 1 limit`; in particular a zero or negative limit yields an effective cap
of 1. -/
theorem C10_limit_clamped_to_one (s : ManagerState) (limit : Int) :
    (set_concurrent_downloads limit s).max_threads = max 1 limit ∧
    (limit ≤ 0 → (set_concurrent_downloads limit s).max_threads = 1) := by
  refine ⟨rfl, fun h => ?_⟩
  show max 1 limit = 1
  omega

/-- C10 witness: configuring a negative limit on a fresh manager yields an
effective cap of 1. -/
theorem C10_limit_clamped_to_one_witness :
    (set_concurrent_downloads (-2) (initState 3 "/downloads")).max_threads = 1 :=
  (C10_limit_clamped_to_one (initState 3 "/downloads") (-2)).2 (by decide)

/-- C2 counterexample: the claimed invariant "active count ≤ configured
limit at every reachable state" fails, because lowering the limit does not
preempt running workers: submitting three URLs at limit 3 and then
configuring limit 1 reaches a state with 3 active workers and a limit of
1. -/
theorem C2_counterexample_lowered_limit :
    Reachable (execTrace (initState 3 "/d")
      [Ev.submit ["a", "b", "c"] "best", Ev.config 1]) ∧
    ¬ (((execTrace (initState 3 "/d")
        [Ev.submit ["a", "b", "c"] "best", Ev.config 1]).active.length : Int) ≤
      (execTrace (initState 3 "/d")
        [Ev.submit ["a", "b", "c"] "best", Ev.config 1]).max_threads) := by
  refine ⟨⟨3, "/d", [Ev.submit ["a", "b", "c"] "best", Ev.config 1], rfl⟩, ?_⟩
  decide

/-- C2 amended: the cap invariant holds initially and is preserved by every
event except a reconfiguration that lowers the limit below the current active
count (lowering never preempts running workers); and `_start_next_download`
itself never starts a worker once the active count has reached the limit. -/
theorem C2_amended_cap_invariant :
    (∀ (limit : Int) (folder : String),
      (((initState limit folder).active.length : Int) ≤
        (initState limit folder).max_threads)) ∧
    (∀ (s : ManagerState) (e : Ev),
      ((s.active.length : Int) ≤ s.max_threads) →
      (∀ limit : Int, e = Ev.config limit → (s.active.length : Int) ≤ max 1 limit) →
      (((exec s e).active.length : Int) ≤ (exec s e).max_threads)) ∧
    (∀ s : ManagerState, s.max_threads ≤ (s.active.length : Int) →
      start_next_download s = s) := by
  refine ⟨?_, ?_, fun s h => start_next_download_full s h⟩
  · intro limit folder
    show ((0 : Nat) : Int) ≤ max 1 limit
    omega
  · intro s e h hcfg
    cases e with
    | submit urls resolution =>
      exact drainLoop_active_le _ s.active s.started s.max_threads h
    | config limit => exact hcfg limit rfl
    | stop => exact h
    | finish r c1 ext =>
      show ((worker_finish r c1 ext s).active.length : Int) ≤
        (worker_finish r c1 ext s).max_threads
      unfold worker_finish
      split
      case isTrue hr =>
        refine drainLoop_active_le _ _ _ _ ?_
        show ((s.active.erase r).length : Int) ≤ s.max_threads
        have := List.length_erase_le r s.active
        omega
      case isFalse => exact h

/-- C2 amended, witness: the preservation step applied to a concrete
reachable configuration (a stop event on a fresh manager with limit 2). -/
theorem C2_amended_cap_invariant_witness :
    ((exec (initState 2 "/d") Ev.stop).active.length : Int) ≤
      (exec (initState 2 "/d") Ev.stop).max_threads :=
  C2_amended_cap_invariant.2.1 (initState 2 "/d") Ev.stop (by decide)
    (fun limit h => Ev.noConfusion h)

/-- C5: FIFO start order.  Within one submission, serial numbers are assigned
in list order (first conjunct), and in every reachable state the dispatch
history carries strictly increasing serial numbers, so a request enqueued
earlier is started no later than any request enqueued after it, with no
intervening-stop or same-batch proviso needed (second conjunct). -/
theorem C5_fifo_start_order :
    (∀ (firstId : Nat) (urls : List String),
      (mkReqs firstId urls).Pairwise (fun a b => a.rid < b.rid)) ∧
    (∀ s : ManagerState, Reachable s →
      ∀ i j : Fin s.started.length,
        (s.started.get i).rid < (s.started.get j).rid → i < j) := by
  refine ⟨fun firstId urls => mkReqs_sorted firstId urls, fun s hs i j hij => ?_⟩
  have hsorted := (minv_of_reachable hs).started_sorted
  rw [List.pairwise_iff_get] at hsorted
  rcases lt_trichotomy i j with h | h | h
  · exact h
  · subst h
    exact absurd hij (lt_irrefl _)
  · have := hsorted j i h
    omega

/-- C5 witness: in the state reached by submitting two URLs at limit 2, the
first-submitted request occupies the earlier start slot. -/
theorem C5_fifo_start_order_witness :
    (⟨0, by decide⟩ :
      Fin (execTrace (initState 2 "/d") [Ev.submit ["a", "b"] "best"]).started.length) <
      ⟨1, by decide⟩ :=
  C5_fifo_start_order.2 _ ⟨2, "/d", [Ev.submit ["a", "b"] "best"], rfl⟩ _ _ (by decide)

/-- C9 counterexample: with limit 1, one active worker and two queued
requests, raising the limit to 3 leaves both requests in the queue and starts
nothing — the queued requests do wait for the running task, contrary to the
claim that they start without waiting. -/
theorem C9_counterexample_config_starts_nothing :
    (execTrace (initState 1 "/d")
        [Ev.submit ["a", "b", "c"] "best", Ev.config 3]).download_queue =
      [⟨1, "b"⟩, ⟨2, "c"⟩] ∧
    (execTrace (initState 1 "/d")
        [Ev.submit ["a", "b", "c"] "best", Ev.config 3]).active = [⟨0, "a"⟩] ∧
    (execTrace (initState 1 "/d")
        [Ev.submit ["a", "b", "c"] "best", Ev.config 3]).started = [⟨0, "a"⟩] := by
  decide

/-- C9 amended: reconfiguration only updates the stored cap and dispatches
nothing itself; the raised limit takes effect at the next drain — in the
claim's scenario, once the single running task finishes, both queued requests
start together under the new limit of 3. -/
theorem C9_amended_limit_applies_at_next_drain :
    (∀ (s : ManagerState) (limit : Int),
      set_concurrent_downloads limit s = { s with max_threads := max 1 limit }) ∧
    (execTrace (initState 1 "/d")
        [Ev.submit ["a", "b", "c"] "best", Ev.config 3,
         Ev.finish ⟨0, "a"⟩ false (.dlError "boom")]).active =
      [⟨1, "b"⟩, ⟨2, "c"⟩] ∧
    (execTrace (initState 1 "/d")
        [Ev.submit ["a", "b", "c"] "best", Ev.config 3,
         Ev.finish ⟨0, "a"⟩ false (.dlError "boom")]).download_queue = [] := by
  exact ⟨fun s limit => rfl, by decide, by decide⟩

/-- C3: after `stop_all_downloads` on a reachable state, (1) the pending
queue is cleared at once; (2) a request pending at the stop never appears in
the dispatch history and never receives an outcome, along every continuation
whatsoever; (3) as long as no new batch is submitted (a new submission
re-arms the flag), every outcome reported after the stop is `Cancelled`; and
(4) every worker active at the stop can reach a `Cancelled` outcome in such a
continuation. -/
theorem C3_stop_cancels_and_drops (s : ManagerState) (hs : Reachable s) :
    (stop_all_downloads s).download_queue = [] ∧
    (∀ r ∈ s.download_queue, ∀ evs : List Ev,
      r ∉ (execTrace (stop_all_downloads s) evs).started ∧
      ∀ p ∈ (execTrace (stop_all_downloads s) evs).outcomes, p.1 ≠ r) ∧
    (∀ evs : List Ev, (∀ e ∈ evs, ¬ IsSubmit e) →
      ∀ p ∈ (execTrace (stop_all_downloads s) evs).outcomes,
        p ∈ s.outcomes ∨ p.2 = DlOutcome.cancelled p.1.url) ∧
    (∀ r ∈ s.active, ∃ evs : List Ev, (∀ e ∈ evs, ¬ IsSubmit e) ∧
      (r, DlOutcome.cancelled r.url) ∈ (execTrace (stop_all_downloads s) evs).outcomes) := by
  have hinv := minv_of_reachable hs
  refine ⟨rfl, ?_, ?_, ?_⟩
  · intro r hr evs
    have hnst : r ∉ s.started := fun hrs =>
      absurd (hinv.started_lt_queue r hrs r hr) (lt_irrefl _)
    have hav : Avoids r (stop_all_downloads s) := by
      refine ⟨List.not_mem_nil r, ?_, hnst, ?_, hinv.queue_lt_next r hr⟩
      · exact fun hra => hnst (hinv.active_sub_started r hra)
      · intro p hp hpr
        exact hnst (hpr ▸ hinv.outcomes_sub_started p hp)
    have hres := avoids_exec_trace evs hav
    exact ⟨hres.2.2.1, hres.2.2.2.1⟩
  · intro evs hevs p hp
    exact (outcomes_cancelled_trace (s := stop_all_downloads s) evs rfl hevs).2 p hp
  · intro r hr
    refine ⟨[Ev.finish r false (.dlError "boom")], ?_, ?_⟩
    · intro e he
      rw [List.mem_singleton] at he
      subst he
      exact fun h => h
    · show (r, DlOutcome.cancelled r.url) ∈
        (worker_finish r false (.dlError "boom") (stop_all_downloads s)).outcomes
      have hmem := worker_finish_outcomes_mem (s := stop_all_downloads s)
        (r := r) hr false (.dlError "boom")
      have hout : (DownloadWorker.run r.url (stop_all_downloads s).download_folder
          (stop_all_downloads s).video_resolution none true false
          (stop_all_downloads s).cancel_set (stop_all_downloads s).cancel_set
          (.dlError "boom")).outcome = DlOutcome.cancelled r.url :=
        run_outcome_cancelled_of_flag r.url (stop_all_downloads s).download_folder
          (stop_all_downloads s).video_resolution none false (.dlError "boom")
      rw [hout] at hmem
      exact hmem

/-- C3 witness: stopping a manager that has two active workers and one queued
request (limit 2, three URLs submitted) clears the queue at once. -/
theorem C3_stop_cancels_and_drops_witness :
    (stop_all_downloads
      (execTrace (initState 2 "/d") [Ev.submit ["a", "b", "c"] "best"])).download_queue = [] :=
  (C3_stop_cancels_and_drops _ ⟨2, "/d", [Ev.submit ["a", "b", "c"] "best"], rfl⟩).1
